import Mathlib

/-!
Verification of the network-device discovery and inventory core
(scripts/discover_devices.py and scripts/generate_complete_inventory.py).

The Python code is shallowly embedded: IPv4 addresses are quadruples of
octets, the nested inventory dictionaries become an inductive tree of
groups, probe calls become oracle functions, and the arbitrary arrival
order of concurrent probe completions becomes an explicit permutation
parameter.
-/

set_option linter.unusedVariables false

/-- IPv4 address as four octets, mirroring Python ipaddress.IPv4Address. -/
structure IPv4 where
  a : Fin 256
  b : Fin 256
  c : Fin 256
  d : Fin 256
deriving DecidableEq, Repr

/-- Numeric value of an address, as Python int(IPv4Address). -/
def IPv4.value (ip : IPv4) : Nat :=
  ((ip.a.val * 256 + ip.b.val) * 256 + ip.c.val) * 256 + ip.d.val

/-- Decimal string of one octet, as Python str() renders each component. -/
def octetStr (n : Fin 256) : String := Nat.repr n.val

/-- Dotted-quad string of an address, as Python str(IPv4Address). -/
def ipStr (ip : IPv4) : String :=
  octetStr ip.a ++ "." ++ octetStr ip.b ++ "." ++ octetStr ip.c ++ "." ++ octetStr ip.d

/-- Canonical hostname: "device-" + str(ip).replace('.', '-') (line 137 of
discover_devices.py).  Octet strings contain only digits, so replacing every
dot of the dotted-quad string yields exactly this dash-joined form. -/
def hostname (ip : IPv4) : String :=
  "device-" ++ octetStr ip.a ++ "-" ++ octetStr ip.b ++ "-" ++ octetStr ip.c
    ++ "-" ++ octetStr ip.d

/-- classify_device_type (discover_devices.py lines 74-96): bins on the last
octet of the address, first match wins. -/
def classify_device_type (ip : IPv4) : String × String :=
  let last_octet := ip.d.val
  if 1 ≤ last_octet ∧ last_octet ≤ 10 then ("cisco_routers", "ios")
  else if 11 ≤ last_octet ∧ last_octet ≤ 30 then ("cisco_switches", "ios")
  else if 31 ≤ last_octet ∧ last_octet ≤ 40 then ("arista_switches", "eos")
  else if 41 ≤ last_octet ∧ last_octet ≤ 50 then ("juniper_routers", "junos")
  else if 51 ≤ last_octet ∧ last_octet ≤ 60 then ("palo_alto_firewalls", "panos")
  else if 61 ≤ last_octet ∧ last_octet ≤ 70 then ("fortinet_firewalls", "fortios")
  else ("unknown_devices", "unknown")

/-- Scalar or nested-mapping values of the inventory document, the shapes
that appear in the Python dictionaries handed to yaml.dump / json.dump. -/
inductive Value where
  | str (s : String)
  | bool (b : Bool)
  | nat (n : Nat)
  | map (entries : List (String × Value))

/-- One host's variable mapping (a Python dict in insertion order). -/
abbrev Config := List (String × Value)

/-- Base per-device variables (discover_devices.py lines 139-143). -/
def baseConfig (ip : IPv4) : Config :=
  [("ansible_host", .str (ipStr ip)),
   ("device_role", .str "auto_discovered"),
   ("site", .str "discovered")]

/-- OS-specific connection parameters merged by dict.update
(discover_devices.py lines 146-186).  The keys added here are disjoint from
the base keys, so update appends them in order. -/
def osConfig (os_type : String) : Config :=
  if os_type = "ios" then
    [("ansible_network_os", .str "ios"),
     ("ansible_connection", .str "network_cli"),
     ("ansible_user", .str "\x7b\x7b vault_cisco_username \x7d\x7d"),
     ("ansible_password", .str "\x7b\x7b vault_cisco_password \x7d\x7d")]
  else if os_type = "eos" then
    [("ansible_network_os", .str "eos"),
     ("ansible_connection", .str "httpapi"),
     ("ansible_httpapi_use_ssl", .bool true),
     ("ansible_httpapi_port", .nat 443),
     ("ansible_user", .str "\x7b\x7b vault_arista_username \x7d\x7d"),
     ("ansible_password", .str "\x7b\x7b vault_arista_password \x7d\x7d")]
  else if os_type = "junos" then
    [("ansible_network_os", .str "junos"),
     ("ansible_connection", .str "netconf"),
     ("ansible_user", .str "\x7b\x7b vault_juniper_username \x7d\x7d"),
     ("ansible_password", .str "\x7b\x7b vault_juniper_password \x7d\x7d")]
  else if os_type = "panos" then
    [("ansible_connection", .str "local"),
     ("panos_username", .str "\x7b\x7b vault_panos_username \x7d\x7d"),
     ("panos_password", .str "\x7b\x7b vault_panos_password \x7d\x7d"),
     ("panos_provider", .map
       [("ip_address", .str "\x7b\x7b ansible_host \x7d\x7d"),
        ("username", .str "\x7b\x7b panos_username \x7d\x7d"),
        ("password", .str "\x7b\x7b panos_password \x7d\x7d")])]
  else if os_type = "fortios" then
    [("ansible_connection", .str "httpapi"),
     ("ansible_httpapi_use_ssl", .bool true),
     ("ansible_httpapi_port", .nat 443),
     ("ansible_httpapi_session_key", .str "\x7b\x7b vault_fortigate_api_token \x7d\x7d")]
  else []

/-- Full per-device variable mapping built for one discovered address. -/
def device_config (ip : IPv4) (os_type : String) : Config :=
  baseConfig ip ++ osConfig os_type

/-- An inventory group: a mapping of hostname to variables plus a mapping of
name to child group, the structure of each nested dict under 'all'. -/
inductive Node where
  | mk (hosts : List (String × Config)) (children : List (String × Node))

def Node.hosts : Node → List (String × Config)
  | .mk h _ => h

def Node.children : Node → List (String × Node)
  | .mk _ c => c

/-- Python dict assignment d[k] = v: replace in place when the key exists,
append otherwise. -/
def insertKV {α : Type} : List (String × α) → String → α → List (String × α)
  | [], k, v => [(k, v)]
  | (k', v') :: rest, k, v =>
    if k' = k then (k, v) :: rest else (k', v') :: insertKV rest k v

/-- Update the named child group in place (indexing into a 'children' dict
whose key is known to be present). -/
def modifyChild (cs : List (String × Node)) (name : String) (f : Node → Node) :
    List (String × Node) :=
  cs.map (fun p => if p.1 = name then (p.1, f p.2) else p)

def Node.setHost (n : Node) (h : String) (c : Config) : Node :=
  .mk (insertKV n.hosts h c) n.children

def Node.modChild (n : Node) (name : String) (f : Node → Node) : Node :=
  .mk n.hosts (modifyChild n.children name f)

/-- The fixed skeleton under the root group 'all'
(discover_devices.py lines 101-133). -/
def initialInventory : Node :=
  .mk []
    [("cisco_devices", .mk []
       [("cisco_routers", .mk [] []),
        ("cisco_switches", .mk [] [])]),
     ("palo_alto_devices", .mk []
       [("palo_alto_firewalls", .mk [] [])]),
     ("fortinet_devices", .mk []
       [("fortinet_firewalls", .mk [] [])]),
     ("juniper_devices", .mk []
       [("juniper_routers", .mk [] [])]),
     ("arista_devices", .mk []
       [("arista_switches", .mk [] [])]),
     ("unknown_devices", .mk [] [])]

/-- Navigation to the correct leaf group and host insertion
(discover_devices.py lines 188-202). -/
def placeRecord (inv : Node) (device_group hostn : String) (cfg : Config) : Node :=
  if device_group = "cisco_routers" ∨ device_group = "cisco_switches" then
    inv.modChild "cisco_devices"
      (fun g => g.modChild device_group (fun leaf => leaf.setHost hostn cfg))
  else if device_group = "palo_alto_firewalls" then
    inv.modChild "palo_alto_devices"
      (fun g => g.modChild device_group (fun leaf => leaf.setHost hostn cfg))
  else if device_group = "fortinet_firewalls" then
    inv.modChild "fortinet_devices"
      (fun g => g.modChild device_group (fun leaf => leaf.setHost hostn cfg))
  else if device_group = "juniper_routers" then
    inv.modChild "juniper_devices"
      (fun g => g.modChild device_group (fun leaf => leaf.setHost hostn cfg))
  else if device_group = "arista_switches" then
    inv.modChild "arista_devices"
      (fun g => g.modChild device_group (fun leaf => leaf.setHost hostn cfg))
  else
    inv.modChild "unknown_devices" (fun leaf => leaf.setHost hostn cfg)

/-- Insertion step for one discovered address
(body of the loop at discover_devices.py lines 135-202). -/
def inventoryStep (inv : Node) (ip : IPv4) : Node :=
  let gp := classify_device_type ip
  placeRecord inv gp.1 (hostname ip) (device_config ip gp.2)

/-- generate_inventory (discover_devices.py lines 98-204): fold the
discovered hosts into the fixed skeleton.  output_format is accepted and
unused, as in the source. -/
def generate_inventory (discovered_hosts : List IPv4) (output_format : String) : Node :=
  discovered_hosts.foldl inventoryStep initialInventory

/-- Value of a digit string read back as a number (left inverse used to show
that octet strings are injective). -/
def digitsVal (l : List Char) : Nat :=
  l.foldl (fun acc c => acc * 10 + (c.toNat - 48)) 0


/-- Numeric comparison of addresses, the order Python sorted() uses on
IPv4Address objects. -/
def ipLe (x y : IPv4) : Prop := x.value ≤ y.value

instance : DecidableRel ipLe := fun x y => Nat.decLe x.value y.value

instance : IsTotal IPv4 ipLe := ⟨fun x y => Nat.le_total x.value y.value⟩

instance : IsTrans IPv4 ipLe := ⟨fun _ _ _ h1 h2 => Nat.le_trans h1 h2⟩

instance : IsAntisymm IPv4 ipLe := by
  refine ⟨fun x y h1 h2 => ?_⟩
  obtain ⟨a, b, c, d⟩ := x
  obtain ⟨a', b', c', d'⟩ := y
  simp only [ipLe, IPv4.value] at h1 h2
  have ha := a.isLt
  have hb := b.isLt
  have hc := c.isLt
  have hd := d.isLt
  have ha' := a'.isLt
  have hb' := b'.isLt
  have hc' := c'.isLt
  have hd' := d'.isLt
  simp only [IPv4.mk.injEq, Fin.ext_iff]
  omega

mutual

/-- All hostnames stored anywhere in a group tree, in group order. -/
def nodeHostnames : Node → List String
  | .mk h cs => h.map Prod.fst ++ forestHostnames cs

def forestHostnames : List (String × Node) → List String
  | [] => []
  | (_, g) :: rest => nodeHostnames g ++ forestHostnames rest

end

mutual

/-- Number of groups in the tree whose own hosts mapping contains the given
name.  Non-leaf groups of the built inventory store no hosts, so this counts
the leaf groups owning the name. -/
def hostGroupCount : Node → String → Nat
  | .mk h cs, name =>
    (if name ∈ h.map Prod.fst then 1 else 0) + forestHostGroupCount cs name

def forestHostGroupCount : List (String × Node) → String → Nat
  | [], _ => 0
  | (_, g) :: rest, name => hostGroupCount g name + forestHostGroupCount rest name

end

mutual

/-- The group skeleton of a tree: same groups and nesting, all hosts dropped. -/
def skeletonOf : Node → Node
  | .mk _ cs => .mk [] (forestSkeleton cs)

def forestSkeleton : List (String × Node) → List (String × Node)
  | [] => []
  | (n, g) :: rest => (n, skeletonOf g) :: forestSkeleton rest

end

/-- The seven leaf-group host mappings of the discovery inventory, used to
describe the tree that generate_inventory builds. -/
structure Leaves where
  ciscoR : List (String × Config)
  ciscoS : List (String × Config)
  palo : List (String × Config)
  forti : List (String × Config)
  junip : List (String × Config)
  arista : List (String × Config)
  unknown : List (String × Config)

/-- The discovery inventory skeleton with the given leaf host mappings. -/
def skel (L : Leaves) : Node :=
  .mk []
    [("cisco_devices", .mk []
       [("cisco_routers", .mk L.ciscoR []),
        ("cisco_switches", .mk L.ciscoS [])]),
     ("palo_alto_devices", .mk []
       [("palo_alto_firewalls", .mk L.palo [])]),
     ("fortinet_devices", .mk []
       [("fortinet_firewalls", .mk L.forti [])]),
     ("juniper_devices", .mk []
       [("juniper_routers", .mk L.junip [])]),
     ("arista_devices", .mk []
       [("arista_switches", .mk L.arista [])]),
     ("unknown_devices", .mk L.unknown [])]

def emptyLeaves : Leaves := ⟨[], [], [], [], [], [], []⟩


/-- Effect of inserting one classified device on the seven leaf mappings. -/
def stepLeaves (L : Leaves) (ip : IPv4) : Leaves :=
  let g := (classify_device_type ip).1
  let h := hostname ip
  let c := device_config ip (classify_device_type ip).2
  if g = "cisco_routers" then { L with ciscoR := insertKV L.ciscoR h c }
  else if g = "cisco_switches" then { L with ciscoS := insertKV L.ciscoS h c }
  else if g = "arista_switches" then { L with arista := insertKV L.arista h c }
  else if g = "juniper_routers" then { L with junip := insertKV L.junip h c }
  else if g = "palo_alto_firewalls" then { L with palo := insertKV L.palo h c }
  else if g = "fortinet_firewalls" then { L with forti := insertKV L.forti h c }
  else { L with unknown := insertKV L.unknown h c }

/-- Outcome of one liveness probe (ping_host, discover_devices.py lines
18-26): the ping subprocess exits zero, exits nonzero, exceeds its timeout,
or raises some other exception. -/
inductive PingOutcome where
  | reply
  | noReply
  | timeout
  | error
deriving DecidableEq

/-- Outcome of one TCP connect attempt (check_ssh_port, lines 28-37). -/
inductive ConnectOutcome where
  | accepted
  | refused
  | timeout
  | error
deriving DecidableEq

/-- ping_host: returns the address when the probe positively replies; a
nonzero exit, a timeout or any exception all yield None. -/
def ping_host (responder : IPv4 → PingOutcome) (ip : IPv4) : Option IPv4 :=
  match responder ip with
  | .reply => some ip
  | _ => none

/-- check_ssh_port: returns the address when the TCP connect succeeds;
refusal, timeout and errors all yield None. -/
def check_ssh_port (connector : IPv4 → ConnectOutcome) (ip : IPv4) : Option IPv4 :=
  match connector ip with
  | .accepted => some ip
  | _ => none

/-- Split a character list on a separator, keeping empty fields, as Python
str.split does. -/
def splitOnChar (sep : Char) : List Char → List (List Char)
  | [] => [[]]
  | c :: rest =>
    match splitOnChar sep rest with
    | [] => [[]]
    | grp :: groups =>
      if c = sep then [] :: grp :: groups else (c :: grp) :: groups

/-- Modelled from the spec: the AddressSpaceExpander delegates octet parsing
to the standard library (ipaddress); an octet is 1-3 digits, no leading
zero, value at most 255. -/
def parseOctet (l : List Char) : Option (Fin 256) :=
  if l ≠ [] ∧ l.all Char.isDigit ∧ (l.head? ≠ some '0' ∨ l = ['0']) then
    let v := digitsVal l
    if h : v < 256 then some ⟨v, h⟩ else none
  else none

/-- Modelled from the spec: prefix-length parsing as the standard library
does it (decimal digits, no leading zero). -/
def parsePrefixLen (l : List Char) : Option Nat :=
  if l ≠ [] ∧ l.all Char.isDigit ∧ (l.head? ≠ some '0' ∨ l = ['0']) then
    some (digitsVal l)
  else none

/-- Modelled from the spec: dotted-quad address parsing via the standard
library (exactly four octet fields). -/
def parseIPv4 (l : List Char) : Option IPv4 :=
  match splitOnChar '.' l with
  | [p1, p2, p3, p4] => do
    let a ← parseOctet p1
    let b ← parseOctet p2
    let c ← parseOctet p3
    let d ← parseOctet p4
    pure ⟨a, b, c, d⟩
  | _ => none

/-- A parsed network: base address value with host bits cleared plus prefix
length, as ipaddress.ip_network(strict=False) produces. -/
structure Network where
  netValue : Nat
  prefixLen : Nat
  hv : netValue < 2 ^ 32
  hp : prefixLen ≤ 32
  hmask : netValue % 2 ^ (32 - prefixLen) = 0

def mkNetwork (ip : IPv4) (p : Nat) (hp : p ≤ 32) : Network :=
  { netValue := 2 ^ (32 - p) * (ip.value / 2 ^ (32 - p))
    prefixLen := p
    hp := hp
    hv := by
      have h1 : 2 ^ (32 - p) * (ip.value / 2 ^ (32 - p)) ≤ ip.value := by
        rw [Nat.mul_comm]
        exact Nat.div_mul_le_self _ _
      have h2 : ip.value < 2 ^ 32 := by
        obtain ⟨a, b, c, d⟩ := ip
        have := a.isLt
        have := b.isLt
        have := c.isLt
        have := d.isLt
        simp only [IPv4.value]
        omega
      omega
    hmask := Nat.mul_mod_right _ _ }

/-- Address with the given 32-bit numeric value. -/
def ipOfValue (v : Nat) : IPv4 :=
  ⟨⟨v / 2 ^ 24 % 256, Nat.mod_lt _ (by omega)⟩,
   ⟨v / 2 ^ 16 % 256, Nat.mod_lt _ (by omega)⟩,
   ⟨v / 2 ^ 8 % 256, Nat.mod_lt _ (by omega)⟩,
   ⟨v % 256, Nat.mod_lt _ (by omega)⟩⟩

/-- The usable host addresses of a network, in ascending order, as
ipaddress hosts(): network and broadcast addresses are excluded, except
that a /31 yields both addresses and a /32 its single address. -/
def Network.hosts (n : Network) : List IPv4 :=
  let size := 2 ^ (32 - n.prefixLen)
  if 31 ≤ n.prefixLen then
    (List.range size).map (fun i => ipOfValue (n.netValue + i))
  else
    (List.range (size - 2)).map (fun i => ipOfValue (n.netValue + 1 + i))

/-- Modelled from the spec: range-descriptor parsing as
ipaddress.ip_network(range, strict=False) treats "a.b.c.d/p" and bare
"a.b.c.d" strings; anything else fails (a ValueError in the source). -/
def parseNetwork (s : String) : Option Network :=
  match splitOnChar '/' s.data with
  | [addr] => (parseIPv4 addr).map (fun ip => mkNetwork ip 32 (by omega))
  | [addr, pl] => do
    let ip ← parseIPv4 addr
    let p ← parsePrefixLen pl
    if hp : p ≤ 32 then pure (mkNetwork ip p hp) else none
  | _ => none

/-- discover_network_devices (discover_devices.py lines 39-72).  An invalid
range is caught (the printed message aside) and yields the empty list.  The
two thread pools are modelled by the arrival-order functions: as_completed
hands back probe results in an arbitrary order, so each pass folds over a
rearrangement of its input; max_workers only sizes the pools and has no
other observable effect.  The final list is sorted ascending. -/
def discover_network_devices (network_range : String)
    (pingResponder : IPv4 → PingOutcome) (sshResponder : IPv4 → ConnectOutcome)
    (arrival1 arrival2 : List IPv4 → List IPv4) (max_workers : Nat) : List IPv4 :=
  match parseNetwork network_range with
  | none => []
  | some network =>
    let live_hosts := (arrival1 network.hosts).filterMap (ping_host pingResponder)
    let ssh_hosts := (arrival2 live_hosts).filterMap (check_ssh_port sshResponder)
    List.insertionSort ipLe ssh_hosts

/-- Observable outcome of one run of main (discover_devices.py lines
206-250): the process exit status, the inventory written to disk if any,
and the device count it reports.  Both the invalid-range path and the
write-error path are caught in the source, so main always exits zero; file
writes are modelled as succeeding. -/
structure MainResult where
  exitSuccess : Bool
  inventoryWritten : Option Node
  reportedCount : Option Nat

/-- The source's main function: discover, then either stop at the
no-devices message or generate and write the inventory and report the
device count.  Named mainRun here because a Lean definition called main is
reserved for executables. -/
def mainRun (network output_format : String)
    (pingResponder : IPv4 → PingOutcome) (sshResponder : IPv4 → ConnectOutcome)
    (arrival1 arrival2 : List IPv4 → List IPv4) (workers : Nat) : MainResult :=
  let discovered_hosts :=
    discover_network_devices network pingResponder sshResponder arrival1 arrival2 workers
  if discovered_hosts.isEmpty then
    ⟨true, none, none⟩
  else
    ⟨true, some (generate_inventory discovered_hosts output_format),
     some discovered_hosts.length⟩

/-- Keys of an association list (the keys of a Python dict, in order). -/
def keysOf {α : Type} (m : List (String × α)) : List String := m.map Prod.fst

/-- Hostnames of the devices classified into the given group. -/
def hfilter (g : String) (l : List IPv4) : List String :=
  (l.filter (fun ip => decide ((classify_device_type ip).1 = g))).map hostname

/-- Host entries of the devices classified into the given group, in input
order. -/
def leafFilter (g : String) (l : List IPv4) : List (String × Config) :=
  (l.filter (fun ip => decide ((classify_device_type ip).1 = g))).map
    (fun ip => (hostname ip, device_config ip (classify_device_type ip).2))

/-- All hostnames currently stored across the seven leaf mappings. -/
def leavesKeys (L : Leaves) : List String :=
  keysOf L.ciscoR ++ keysOf L.ciscoS ++ keysOf L.palo ++ keysOf L.forti ++
    keysOf L.junip ++ keysOf L.arista ++ keysOf L.unknown

/-- The leaf mappings described directly as filters of the input list. -/
def filteredLeaves (l : List IPv4) : Leaves :=
  ⟨leafFilter "cisco_routers" l, leafFilter "cisco_switches" l,
   leafFilter "palo_alto_firewalls" l, leafFilter "fortinet_firewalls" l,
   leafFilter "juniper_routers" l, leafFilter "arista_switches" l,
   leafFilter "unknown_devices" l⟩

mutual

/-- Rendering of a group to the serialized document: a group with children
carries only a children mapping, a leaf only a hosts mapping, exactly the
dictionary shapes of the source skeleton that yaml.dump / json.dump write
out. -/
def renderNode : Node → Value
  | .mk h cs =>
    if cs.isEmpty then .map [("hosts", .map (renderHosts h))]
    else .map [("children", .map (renderForest cs))]

def renderHosts : List (String × Config) → List (String × Value)
  | [] => []
  | (hn, c) :: rest => (hn, .map c) :: renderHosts rest

def renderForest : List (String × Node) → List (String × Value)
  | [] => []
  | (n, g) :: rest => (n, renderNode g) :: renderForest rest

end

/-- The full rendered document: the root group under the key 'all'. -/
def renderDoc (root : Node) : Value := .map [("all", renderNode root)]

mutual

/-- Modelled from the spec: the Serializer parses the rendered encoding
back (the repository only renders; yaml.safe_load / json.load return the
same nested mappings, which are read back following the schema of section
3 of the spec). -/
def parseNode : Value → Option Node
  | .map [("hosts", .map hs)] => (parseHosts hs).map (fun h => Node.mk h [])
  | .map [("children", .map cs)] => (parseForest cs).map (fun f => Node.mk [] f)
  | _ => none

def parseHosts : List (String × Value) → Option (List (String × Config))
  | [] => some []
  | (hn, .map c) :: rest => (parseHosts rest).map (fun r => (hn, c) :: r)
  | _ => none

def parseForest : List (String × Value) → Option (List (String × Node))
  | [] => some []
  | (n, v) :: rest =>
    match parseNode v, parseForest rest with
    | some g, some r => some ((n, g) :: r)
    | _, _ => none

end

/-- Modelled from the spec: parse of the full document. -/
def parseDoc : Value → Option Node
  | .map [("all", v)] => parseNode v
  | _ => none

/-- A group of the static enterprise inventory
(generate_complete_inventory.py): a leaf holding host entries, a nested
children mapping, or an overlay holding only name references.  Host entries
are modelled by their names; the per-host variables play no role in the
grouping structure. -/
inductive CGroup where
  | leaf (hosts : List String)
  | inner (children : List (String × CGroup))
  | refs (names : List String)

/-- Python format {:02d}. -/
def pad2 (n : Nat) : String :=
  if n < 10 then "0" ++ Nat.repr n else Nat.repr n

/-- Python format {:03d}. -/
def pad3 (n : Nat) : String :=
  if n < 10 then "00" ++ Nat.repr n
  else if n < 100 then "0" ++ Nat.repr n
  else Nat.repr n

def devSwitchNames : List String :=
  (List.range 5).map (fun i => "sw-dev-" ++ pad3 (i + 1))

def devRouterNames : List String :=
  (List.range 3).map (fun i => "rtr-dev-" ++ pad3 (i + 1))

def coreSwitchNames : List String :=
  (List.range 10).map (fun i => "sw-core-" ++ pad3 (i + 1))

def distSwitchNames : List String :=
  (List.range 20).map (fun i => "sw-dist-" ++ pad2 (i + 1))

def accessSwitchNames : List String :=
  (List.range 270).map (fun i => "sw-access-" ++ pad3 (i + 1))

def wanRouterNames : List String :=
  (List.range 50).map (fun i => "rtr-wan-" ++ pad3 (i + 1))

def branchRouterNames : List String :=
  (List.range 75).map (fun i => "rtr-branch-" ++ pad3 (i + 1))

def accessRouterNames : List String :=
  (List.range 75).map (fun i => "rtr-access-" ++ pad3 (i + 1))

def aristaSwitchNames : List String :=
  (List.range 50).map (fun i =>
    (if i + 1 ≤ 10 then "sw-spine-" else "sw-leaf-") ++ pad3 (i + 1))

def juniperRouterNames : List String :=
  (List.range 50).map (fun i =>
    (if i + 1 ≤ 15 then "rtr-core-jun-"
     else if i + 1 ≤ 35 then "rtr-edge-jun-"
     else "rtr-pe-jun-") ++ pad3 (i + 1))

def paloAltoNames : List String :=
  (List.range 50).map (fun i =>
    (if i + 1 ≤ 10 then "fw-perimeter-"
     else if i + 1 ≤ 25 then "fw-internal-"
     else "fw-dmz-") ++ pad3 (i + 1))

def cisco_switches_group : CGroup :=
  .inner
    [("core_switches", .leaf coreSwitchNames),
     ("distribution_switches", .leaf distSwitchNames),
     ("access_switches", .leaf accessSwitchNames)]

def cisco_routers_group : CGroup :=
  .inner
    [("wan_routers", .leaf wanRouterNames),
     ("branch_routers", .leaf branchRouterNames),
     ("access_routers", .leaf accessRouterNames)]

def arista_switches_group : CGroup := .leaf aristaSwitchNames

def juniper_routers_group : CGroup := .leaf juniperRouterNames

def palo_alto_firewalls_group : CGroup := .leaf paloAltoNames

def fortinet_firewalls_group : CGroup := .leaf ["fw-internal-fort-01"]

/-- generate_complete_inventory (generate_complete_inventory.py): the
generated document as structured data, leaf hosts produced by the same
loops, overlay groups at lines 336-379 holding name references. -/
def generate_complete_inventory : CGroup :=
  .inner
    [("development_devices", .inner
       [("development_switches", .leaf devSwitchNames),
        ("development_routers", .leaf devRouterNames),
        ("development_firewalls", .leaf ["fw-dev-001", "fw-dev-002"])]),
     ("cisco_devices", .inner
       [("cisco_switches", cisco_switches_group),
        ("cisco_routers", cisco_routers_group)]),
     ("arista_devices", .inner [("arista_switches", arista_switches_group)]),
     ("juniper_devices", .inner [("juniper_routers", juniper_routers_group)]),
     ("palo_alto_devices", .inner [("palo_alto_firewalls", palo_alto_firewalls_group)]),
     ("fortinet_devices", .inner [("fortinet_firewalls", fortinet_firewalls_group)]),
     ("all_cisco", .refs ["cisco_devices"]),
     ("all_arista", .refs ["arista_devices"]),
     ("all_juniper", .refs ["juniper_devices"]),
     ("all_palo_alto", .refs ["palo_alto_devices"]),
     ("all_switches", .refs
       ["cisco_devices:cisco_switches", "arista_devices:arista_switches"]),
     ("all_routers", .refs
       ["cisco_devices:cisco_routers", "juniper_devices:juniper_routers"]),
     ("all_firewalls", .refs
       ["palo_alto_devices:palo_alto_firewalls", "fortinet_devices:fortinet_firewalls"]),
     ("production", .refs
       ["cisco_devices", "arista_devices", "juniper_devices",
        "palo_alto_devices", "fortinet_devices"]),
     ("development", .refs ["development_devices"])]

/-- Look up a directly nested child group by name. -/
def lookupChild (g : CGroup) (n : String) : Option CGroup :=
  match g with
  | .inner cs => (cs.find? (fun p => p.1 == n)).map Prod.snd
  | _ => none

/-- Follow a path of group names from a root. -/
def lookupPath (g : CGroup) : List String → Option CGroup
  | [] => some g
  | n :: rest =>
    match lookupChild g n with
    | some c => lookupPath c rest
    | none => none

mutual

/-- Host entries owned anywhere in a subtree.  An overlay (refs) group owns
none: it only names other groups. -/
def cHosts : CGroup → List String
  | .leaf hs => hs
  | .inner cs => cForestHosts cs
  | .refs _ => []

def cForestHosts : List (String × CGroup) → List String
  | [] => []
  | (_, g) :: rest => cHosts g ++ cForestHosts rest

end

/-- Path named by one reference string, split on ':'. -/
def refPath (s : String) : List String :=
  (splitOnChar ':' s.data).map (fun l => ⟨l⟩)

/-- Resolve one reference string against the root. -/
def resolveRef (root : CGroup) (ref : String) : Option CGroup :=
  lookupPath root (refPath ref)

/-- Hosts an overlay group resolves to: the concatenation of the hosts of
the groups it references by name. -/
def overlayHosts (root : CGroup) : CGroup → List String
  | .refs names =>
    (names.map (fun n =>
      match resolveRef root n with
      | some t => cHosts t
      | none => [])).flatten
  | g => cHosts g

/-- Exactly one of three propositions holds. -/
def exactlyOne (A B C : Prop) : Prop :=
  (A ∧ ¬B ∧ ¬C) ∨ (¬A ∧ B ∧ ¬C) ∨ (¬A ∧ ¬B ∧ C)

-- ===== Theorems =====

set_option maxRecDepth 10000 in
theorem digitsVal_octetStr : ∀ a : Fin 256, digitsVal (octetStr a).data = a.val := by
  decide

set_option maxRecDepth 10000 in
theorem octetStr_no_dash : ∀ a : Fin 256, '-' ∉ (octetStr a).data := by
  decide

theorem octetStr_inj {a b : Fin 256} (h : (octetStr a).data = (octetStr b).data) :
    a = b := by
  have ha := digitsVal_octetStr a
  have hb := digitsVal_octetStr b
  rw [h] at ha
  exact Fin.ext (ha ▸ hb)

theorem dashSplit : ∀ {xs us ys vs : List Char}, '-' ∉ xs → '-' ∉ us →
    xs ++ '-' :: ys = us ++ '-' :: vs → xs = us ∧ ys = vs := by
  intro xs
  induction xs with
  | nil =>
    intro us ys vs _ hu h
    cases us with
    | nil => simpa using h
    | cons u ur =>
      simp at h
      exact absurd (h.1 ▸ List.mem_cons_self u ur) hu
  | cons x xr ih =>
    intro us ys vs hx hu h
    cases us with
    | nil =>
      simp at h
      exact absurd (h.1 ▸ List.mem_cons_self x xr) hx
    | cons u ur =>
      simp at h
      obtain ⟨rfl, h2⟩ := h
      have := ih (fun m => hx (List.mem_cons_of_mem _ m))
        (fun m => hu (List.mem_cons_of_mem _ m)) h2
      exact ⟨by rw [this.1], this.2⟩

theorem hostname_data (ip : IPv4) :
    (hostname ip).data =
      "device-".data ++ ((octetStr ip.a).data ++ '-' :: ((octetStr ip.b).data
        ++ '-' :: ((octetStr ip.c).data ++ '-' :: (octetStr ip.d).data))) := by
  simp [hostname, String.data_append]

/-- The canonical hostname transform is injective: two distinct addresses can
never collide on their derived hostname. -/
theorem hostname_inj {x y : IPv4} (h : hostname x = hostname y) : x = y := by
  have hd := congrArg String.data h
  rw [hostname_data, hostname_data] at hd
  have h1 := List.append_cancel_left hd
  obtain ⟨e1, h2⟩ := dashSplit (octetStr_no_dash _) (octetStr_no_dash _) h1
  obtain ⟨e2, h3⟩ := dashSplit (octetStr_no_dash _) (octetStr_no_dash _) h2
  obtain ⟨e3, e4⟩ := dashSplit (octetStr_no_dash _) (octetStr_no_dash _) h3
  have ha := octetStr_inj e1
  have hb := octetStr_inj e2
  have hc := octetStr_inj e3
  have hdq := octetStr_inj e4
  cases x
  cases y
  simp_all

theorem IPv4.value_inj {x y : IPv4} (h : x.value = y.value) : x = y := by
  obtain ⟨a, b, c, d⟩ := x
  obtain ⟨a', b', c', d'⟩ := y
  simp only [IPv4.value] at h
  have ha := a.isLt
  have hb := b.isLt
  have hc := c.isLt
  have hd := d.isLt
  have ha' := a'.isLt
  have hb' := b'.isLt
  have hc' := c'.isLt
  have hd' := d'.isLt
  have : a.val = a'.val ∧ b.val = b'.val ∧ c.val = c'.val ∧ d.val = d'.val := by
    omega
  simp [Fin.ext_iff]
  omega

theorem initialInventory_skel : initialInventory = skel emptyLeaves := rfl


theorem classify_fst_mem (ip : IPv4) :
    (classify_device_type ip).1 ∈
      ["cisco_routers", "cisco_switches", "arista_switches", "juniper_routers",
       "palo_alto_firewalls", "fortinet_firewalls", "unknown_devices"] := by
  unfold classify_device_type
  dsimp only
  split_ifs <;> simp

theorem inventoryStep_skel (L : Leaves) (ip : IPv4) :
    inventoryStep (skel L) ip = skel (stepLeaves L ip) := by
  have hm := classify_fst_mem ip
  simp only [List.mem_cons, List.not_mem_nil, or_false] at hm
  rcases hm with h | h | h | h | h | h | h <;>
    simp_all [inventoryStep, placeRecord, stepLeaves, skel, Node.modChild,
      modifyChild, Node.setHost, Node.hosts, Node.children]

theorem foldl_inventoryStep_skel (l : List IPv4) :
    ∀ L, l.foldl inventoryStep (skel L) = skel (l.foldl stepLeaves L) := by
  induction l with
  | nil => intro L; rfl
  | cons ip rest ih =>
    intro L
    rw [List.foldl_cons, List.foldl_cons, inventoryStep_skel, ih]

/-- The tree generate_inventory builds is always the fixed skeleton with the
accumulated leaf host mappings. -/
theorem generate_inventory_skel (l : List IPv4) (fmt : String) :
    generate_inventory l fmt = skel (l.foldl stepLeaves emptyLeaves) := by
  rw [generate_inventory, initialInventory_skel, foldl_inventoryStep_skel]

example : classify_device_type ⟨192, 168, 1, 5⟩ = ("cisco_routers", "ios") := by decide
example : classify_device_type ⟨10, 0, 0, 200⟩ = ("unknown_devices", "unknown") := by decide
example : hostname ⟨192, 168, 1, 5⟩ = "device-192-168-1-5" := by decide

theorem hostname_injective : Function.Injective hostname :=
  fun _ _ h => hostname_inj h

theorem insertKV_of_not_mem {α : Type} (m : List (String × α)) (k : String) (v : α)
    (hk : k ∉ keysOf m) : insertKV m k v = m ++ [(k, v)] := by
  induction m with
  | nil => rfl
  | cons p rest ih =>
    simp only [keysOf, List.map_cons, List.mem_cons, not_or] at hk
    obtain ⟨h1, h2⟩ := hk
    obtain ⟨k', v'⟩ := p
    simp only [insertKV]
    rw [if_neg (fun he => h1 he.symm)]
    rw [ih (by simpa [keysOf] using h2)]
    simp

theorem keysOf_leafFilter (g : String) (l : List IPv4) :
    keysOf (leafFilter g l) = hfilter g l := by
  simp [keysOf, leafFilter, hfilter, List.map_map, Function.comp_def]

theorem leafFilter_cons_eq (g : String) (ip : IPv4) (l : List IPv4)
    (h : (classify_device_type ip).1 = g) :
    leafFilter g (ip :: l) =
      (hostname ip, device_config ip (classify_device_type ip).2) :: leafFilter g l := by
  simp [leafFilter, List.filter_cons, h]

theorem leafFilter_cons_ne (g : String) (ip : IPv4) (l : List IPv4)
    (h : (classify_device_type ip).1 ≠ g) :
    leafFilter g (ip :: l) = leafFilter g l := by
  simp [leafFilter, List.filter_cons, h]

set_option maxHeartbeats 2000000 in
theorem foldl_stepLeaves_spec (l : List IPv4) :
    ∀ L : Leaves, (∀ ip ∈ l, hostname ip ∉ leavesKeys L) → (l.map hostname).Nodup →
    l.foldl stepLeaves L =
      ⟨L.ciscoR ++ leafFilter "cisco_routers" l,
       L.ciscoS ++ leafFilter "cisco_switches" l,
       L.palo ++ leafFilter "palo_alto_firewalls" l,
       L.forti ++ leafFilter "fortinet_firewalls" l,
       L.junip ++ leafFilter "juniper_routers" l,
       L.arista ++ leafFilter "arista_switches" l,
       L.unknown ++ leafFilter "unknown_devices" l⟩ := by
  induction l with
  | nil =>
    intro L _ _
    obtain ⟨r, s, p, f, j, a, u⟩ := L
    simp [leafFilter]
  | cons ip rest ih =>
    intro L hfresh hnodup
    obtain ⟨r, s, p, f, j, a, u⟩ := L
    have hnotinL := hfresh ip (List.mem_cons_self _ _)
    have hnotrest : hostname ip ∉ rest.map hostname := by
      simp only [List.map_cons, List.nodup_cons] at hnodup
      exact hnodup.1
    have hnodup' : (rest.map hostname).Nodup := by
      simp only [List.map_cons, List.nodup_cons] at hnodup
      exact hnodup.2
    simp only [leavesKeys, List.mem_append, not_or] at hnotinL
    obtain ⟨⟨⟨⟨⟨⟨hniR, hniS⟩, hniP⟩, hniF⟩, hniJ⟩, hniA⟩, hniU⟩ := hnotinL
    have hm := classify_fst_mem ip
    simp only [List.mem_cons, List.not_mem_nil, or_false] at hm
    have hbase : ∀ ip' ∈ rest, hostname ip' ∉ leavesKeys ⟨r, s, p, f, j, a, u⟩ :=
      fun ip' hip' => hfresh ip' (List.mem_cons_of_mem _ hip')
    have hne : ∀ ip' ∈ rest, hostname ip' ≠ hostname ip := by
      intro ip' hip' he
      exact hnotrest (he ▸ List.mem_map_of_mem hostname hip')
    rcases hm with h | h | h | h | h | h | h
    · have hstep : stepLeaves ⟨r, s, p, f, j, a, u⟩ ip =
          ⟨r ++ [(hostname ip, device_config ip (classify_device_type ip).2)],
           s, p, f, j, a, u⟩ := by
        simp [stepLeaves, h, insertKV_of_not_mem _ _ _ hniR]
      have hfresh' : ∀ ip' ∈ rest, hostname ip' ∉ leavesKeys
          ⟨r ++ [(hostname ip, device_config ip (classify_device_type ip).2)],
           s, p, f, j, a, u⟩ := by
        intro ip' hip'
        have h1 := hbase ip' hip'
        have h2 := hne ip' hip'
        simp only [leavesKeys, keysOf, List.map_append, List.mem_append, not_or] at h1 ⊢
        simp_all [keysOf]
      rw [List.foldl_cons, hstep, ih _ hfresh' hnodup',
        leafFilter_cons_eq _ _ _ h,
        leafFilter_cons_ne _ _ _ (by rw [h]; decide),
        leafFilter_cons_ne _ _ _ (by rw [h]; decide),
        leafFilter_cons_ne _ _ _ (by rw [h]; decide),
        leafFilter_cons_ne _ _ _ (by rw [h]; decide),
        leafFilter_cons_ne _ _ _ (by rw [h]; decide),
        leafFilter_cons_ne _ _ _ (by rw [h]; decide)]
      simp
    · have hstep : stepLeaves ⟨r, s, p, f, j, a, u⟩ ip =
          ⟨r, s ++ [(hostname ip, device_config ip (classify_device_type ip).2)],
           p, f, j, a, u⟩ := by
        simp [stepLeaves, h, insertKV_of_not_mem _ _ _ hniS]
      have hfresh' : ∀ ip' ∈ rest, hostname ip' ∉ leavesKeys
          ⟨r, s ++ [(hostname ip, device_config ip (classify_device_type ip).2)],
           p, f, j, a, u⟩ := by
        intro ip' hip'
        have h1 := hbase ip' hip'
        have h2 := hne ip' hip'
        simp only [leavesKeys, keysOf, List.map_append, List.mem_append, not_or] at h1 ⊢
        simp_all [keysOf]
      rw [List.foldl_cons, hstep, ih _ hfresh' hnodup',
        leafFilter_cons_ne _ _ _ (by rw [h]; decide),
        leafFilter_cons_eq _ _ _ h,
        leafFilter_cons_ne _ _ _ (by rw [h]; decide),
        leafFilter_cons_ne _ _ _ (by rw [h]; decide),
        leafFilter_cons_ne _ _ _ (by rw [h]; decide),
        leafFilter_cons_ne _ _ _ (by rw [h]; decide),
        leafFilter_cons_ne _ _ _ (by rw [h]; decide)]
      simp
    · have hstep : stepLeaves ⟨r, s, p, f, j, a, u⟩ ip =
          ⟨r, s, p, f, j,
           a ++ [(hostname ip, device_config ip (classify_device_type ip).2)], u⟩ := by
        simp [stepLeaves, h, insertKV_of_not_mem _ _ _ hniA]
      have hfresh' : ∀ ip' ∈ rest, hostname ip' ∉ leavesKeys
          ⟨r, s, p, f, j,
           a ++ [(hostname ip, device_config ip (classify_device_type ip).2)], u⟩ := by
        intro ip' hip'
        have h1 := hbase ip' hip'
        have h2 := hne ip' hip'
        simp only [leavesKeys, keysOf, List.map_append, List.mem_append, not_or] at h1 ⊢
        simp_all [keysOf]
      rw [List.foldl_cons, hstep, ih _ hfresh' hnodup',
        leafFilter_cons_ne _ _ _ (by rw [h]; decide),
        leafFilter_cons_ne _ _ _ (by rw [h]; decide),
        leafFilter_cons_ne _ _ _ (by rw [h]; decide),
        leafFilter_cons_ne _ _ _ (by rw [h]; decide),
        leafFilter_cons_ne _ _ _ (by rw [h]; decide),
        leafFilter_cons_eq _ _ _ h,
        leafFilter_cons_ne _ _ _ (by rw [h]; decide)]
      simp
    · have hstep : stepLeaves ⟨r, s, p, f, j, a, u⟩ ip =
          ⟨r, s, p, f,
           j ++ [(hostname ip, device_config ip (classify_device_type ip).2)], a, u⟩ := by
        simp [stepLeaves, h, insertKV_of_not_mem _ _ _ hniJ]
      have hfresh' : ∀ ip' ∈ rest, hostname ip' ∉ leavesKeys
          ⟨r, s, p, f,
           j ++ [(hostname ip, device_config ip (classify_device_type ip).2)], a, u⟩ := by
        intro ip' hip'
        have h1 := hbase ip' hip'
        have h2 := hne ip' hip'
        simp only [leavesKeys, keysOf, List.map_append, List.mem_append, not_or] at h1 ⊢
        simp_all [keysOf]
      rw [List.foldl_cons, hstep, ih _ hfresh' hnodup',
        leafFilter_cons_ne _ _ _ (by rw [h]; decide),
        leafFilter_cons_ne _ _ _ (by rw [h]; decide),
        leafFilter_cons_ne _ _ _ (by rw [h]; decide),
        leafFilter_cons_ne _ _ _ (by rw [h]; decide),
        leafFilter_cons_eq _ _ _ h,
        leafFilter_cons_ne _ _ _ (by rw [h]; decide),
        leafFilter_cons_ne _ _ _ (by rw [h]; decide)]
      simp
    · have hstep : stepLeaves ⟨r, s, p, f, j, a, u⟩ ip =
          ⟨r, s, p ++ [(hostname ip, device_config ip (classify_device_type ip).2)],
           f, j, a, u⟩ := by
        simp [stepLeaves, h, insertKV_of_not_mem _ _ _ hniP]
      have hfresh' : ∀ ip' ∈ rest, hostname ip' ∉ leavesKeys
          ⟨r, s, p ++ [(hostname ip, device_config ip (classify_device_type ip).2)],
           f, j, a, u⟩ := by
        intro ip' hip'
        have h1 := hbase ip' hip'
        have h2 := hne ip' hip'
        simp only [leavesKeys, keysOf, List.map_append, List.mem_append, not_or] at h1 ⊢
        simp_all [keysOf]
      rw [List.foldl_cons, hstep, ih _ hfresh' hnodup',
        leafFilter_cons_ne _ _ _ (by rw [h]; decide),
        leafFilter_cons_ne _ _ _ (by rw [h]; decide),
        leafFilter_cons_eq _ _ _ h,
        leafFilter_cons_ne _ _ _ (by rw [h]; decide),
        leafFilter_cons_ne _ _ _ (by rw [h]; decide),
        leafFilter_cons_ne _ _ _ (by rw [h]; decide),
        leafFilter_cons_ne _ _ _ (by rw [h]; decide)]
      simp
    · have hstep : stepLeaves ⟨r, s, p, f, j, a, u⟩ ip =
          ⟨r, s, p, f ++ [(hostname ip, device_config ip (classify_device_type ip).2)],
           j, a, u⟩ := by
        simp [stepLeaves, h, insertKV_of_not_mem _ _ _ hniF]
      have hfresh' : ∀ ip' ∈ rest, hostname ip' ∉ leavesKeys
          ⟨r, s, p, f ++ [(hostname ip, device_config ip (classify_device_type ip).2)],
           j, a, u⟩ := by
        intro ip' hip'
        have h1 := hbase ip' hip'
        have h2 := hne ip' hip'
        simp only [leavesKeys, keysOf, List.map_append, List.mem_append, not_or] at h1 ⊢
        simp_all [keysOf]
      rw [List.foldl_cons, hstep, ih _ hfresh' hnodup',
        leafFilter_cons_ne _ _ _ (by rw [h]; decide),
        leafFilter_cons_ne _ _ _ (by rw [h]; decide),
        leafFilter_cons_ne _ _ _ (by rw [h]; decide),
        leafFilter_cons_eq _ _ _ h,
        leafFilter_cons_ne _ _ _ (by rw [h]; decide),
        leafFilter_cons_ne _ _ _ (by rw [h]; decide),
        leafFilter_cons_ne _ _ _ (by rw [h]; decide)]
      simp
    · have hstep : stepLeaves ⟨r, s, p, f, j, a, u⟩ ip =
          ⟨r, s, p, f, j, a,
           u ++ [(hostname ip, device_config ip (classify_device_type ip).2)]⟩ := by
        simp [stepLeaves, h, insertKV_of_not_mem _ _ _ hniU]
      have hfresh' : ∀ ip' ∈ rest, hostname ip' ∉ leavesKeys
          ⟨r, s, p, f, j, a,
           u ++ [(hostname ip, device_config ip (classify_device_type ip).2)]⟩ := by
        intro ip' hip'
        have h1 := hbase ip' hip'
        have h2 := hne ip' hip'
        simp only [leavesKeys, keysOf, List.map_append, List.mem_append, not_or] at h1 ⊢
        simp_all [keysOf]
      rw [List.foldl_cons, hstep, ih _ hfresh' hnodup',
        leafFilter_cons_ne _ _ _ (by rw [h]; decide),
        leafFilter_cons_ne _ _ _ (by rw [h]; decide),
        leafFilter_cons_ne _ _ _ (by rw [h]; decide),
        leafFilter_cons_ne _ _ _ (by rw [h]; decide),
        leafFilter_cons_ne _ _ _ (by rw [h]; decide),
        leafFilter_cons_ne _ _ _ (by rw [h]; decide),
        leafFilter_cons_eq _ _ _ h]
      simp

theorem buildLeaves_eq (l : List IPv4) (h : (l.map hostname).Nodup) :
    l.foldl stepLeaves emptyLeaves = filteredLeaves l := by
  have hs := foldl_stepLeaves_spec l emptyLeaves
    (by simp [leavesKeys, emptyLeaves, keysOf]) h
  simpa [emptyLeaves, filteredLeaves] using hs

theorem generate_inventory_filtered (l : List IPv4) (fmt : String)
    (h : (l.map hostname).Nodup) :
    generate_inventory l fmt = skel (filteredLeaves l) := by
  rw [generate_inventory_skel, buildLeaves_eq l h]

theorem nodeHostnames_skel (L : Leaves) :
    nodeHostnames (skel L) = leavesKeys L := by
  simp [skel, nodeHostnames, forestHostnames, leavesKeys, keysOf]

theorem hostGroupCount_skel (L : Leaves) (x : String) :
    hostGroupCount (skel L) x =
      ((if x ∈ keysOf L.ciscoR then 1 else 0) + (if x ∈ keysOf L.ciscoS then 1 else 0))
      + ((if x ∈ keysOf L.palo then 1 else 0) + ((if x ∈ keysOf L.forti then 1 else 0)
      + ((if x ∈ keysOf L.junip then 1 else 0) + ((if x ∈ keysOf L.arista then 1 else 0)
      + (if x ∈ keysOf L.unknown then 1 else 0))))) := by
  simp [skel, hostGroupCount, forestHostGroupCount, keysOf]

theorem mem_hfilter {ip : IPv4} (g : String) (l : List IPv4) :
    hostname ip ∈ hfilter g l ↔ ip ∈ l ∧ (classify_device_type ip).1 = g := by
  simp only [hfilter, List.mem_map, List.mem_filter, decide_eq_true_eq]
  constructor
  · rintro ⟨ip', ⟨hmem, hcls⟩, heq⟩
    obtain rfl := hostname_inj heq
    exact ⟨hmem, hcls⟩
  · rintro ⟨h1, h2⟩
    exact ⟨ip, ⟨h1, h2⟩, rfl⟩

theorem hostGroupCount_build (l : List IPv4) (fmt : String) (ip : IPv4)
    (h : (l.map hostname).Nodup) :
    hostGroupCount (generate_inventory l fmt) (hostname ip) =
      if ip ∈ l then 1 else 0 := by
  rw [generate_inventory_filtered l fmt h, hostGroupCount_skel]
  simp only [filteredLeaves, keysOf_leafFilter, mem_hfilter]
  by_cases hm : ip ∈ l
  · have hcls := classify_fst_mem ip
    simp only [List.mem_cons, List.not_mem_nil, or_false] at hcls
    rcases hcls with hc | hc | hc | hc | hc | hc | hc <;> simp +decide [hm, hc]
  · simp [hm]

theorem count_hfilter (l : List IPv4) (g : String) (ip0 : IPv4) :
    (hfilter g l).count (hostname ip0) =
      if (classify_device_type ip0).1 = g then l.count ip0 else 0 := by
  rw [hfilter, List.count_map_of_injective _ hostname hostname_injective]
  by_cases hc : (classify_device_type ip0).1 = g
  · rw [if_pos hc, List.count_filter (by simpa using hc)]
  · rw [if_neg hc, List.count_eq_zero_of_not_mem]
    intro hmem
    exact hc (by simpa using (List.mem_filter.mp hmem).2)

theorem hfilter_partition (l : List IPv4) :
    List.Perm (hfilter "cisco_routers" l ++ hfilter "cisco_switches" l
      ++ hfilter "palo_alto_firewalls" l ++ hfilter "fortinet_firewalls" l
      ++ hfilter "juniper_routers" l ++ hfilter "arista_switches" l
      ++ hfilter "unknown_devices" l) (l.map hostname) := by
  rw [List.perm_iff_count]
  intro x
  by_cases hex : ∃ ip, ip ∈ l ∧ hostname ip = x
  · obtain ⟨ip0, hmem, rfl⟩ := hex
    simp only [List.count_append, count_hfilter,
      List.count_map_of_injective _ hostname hostname_injective]
    have hcls := classify_fst_mem ip0
    simp only [List.mem_cons, List.not_mem_nil, or_false] at hcls
    rcases hcls with hc | hc | hc | hc | hc | hc | hc <;> simp +decide [hc]
  · have h1 : x ∉ l.map hostname := by
      intro hx
      obtain ⟨ip, hip, he⟩ := List.mem_map.mp hx
      exact hex ⟨ip, hip, he⟩
    have h2 : ∀ g, x ∉ hfilter g l := by
      intro g hx
      simp only [hfilter, List.mem_map, List.mem_filter] at hx
      obtain ⟨ip, ⟨hip, _⟩, he⟩ := hx
      exact hex ⟨ip, hip, he⟩
    simp [List.count_append, List.count_eq_zero_of_not_mem, h1, h2]

theorem nodeHostnames_build (l : List IPv4) (fmt : String)
    (h : (l.map hostname).Nodup) :
    List.Perm (nodeHostnames (generate_inventory l fmt)) (l.map hostname) := by
  rw [generate_inventory_filtered l fmt h, nodeHostnames_skel]
  have : leavesKeys (filteredLeaves l) =
      hfilter "cisco_routers" l ++ hfilter "cisco_switches" l
        ++ hfilter "palo_alto_firewalls" l ++ hfilter "fortinet_firewalls" l
        ++ hfilter "juniper_routers" l ++ hfilter "arista_switches" l
        ++ hfilter "unknown_devices" l := by
    simp [leavesKeys, filteredLeaves, keysOf_leafFilter]
  rw [this]
  exact hfilter_partition l

theorem parseHosts_renderHosts : ∀ hs : List (String × Config),
    parseHosts (renderHosts hs) = some hs
  | [] => rfl
  | (hn, c) :: rest => by
    rw [renderHosts, parseHosts, parseHosts_renderHosts rest]
    rfl

theorem roundTrip_skel (L : Leaves) :
    parseDoc (renderDoc (skel L)) = some (skel L) := by
  simp [renderDoc, parseDoc, skel, renderNode, renderForest, parseNode, parseForest,
    parseHosts_renderHosts]

theorem filterMap_ping_host (resp : IPv4 → PingOutcome) :
    ∀ l : List IPv4, l.filterMap (ping_host resp)
      = l.filter (fun ip => decide (resp ip = PingOutcome.reply))
  | [] => rfl
  | ip :: rest => by
    rw [List.filterMap_cons, List.filter_cons]
    cases h : resp ip <;>
      simp [ping_host, h, filterMap_ping_host resp rest]

theorem filterMap_check_ssh (conn : IPv4 → ConnectOutcome) :
    ∀ l : List IPv4, l.filterMap (check_ssh_port conn)
      = l.filter (fun ip => decide (conn ip = ConnectOutcome.accepted))
  | [] => rfl
  | ip :: rest => by
    rw [List.filterMap_cons, List.filter_cons]
    cases h : conn ip <;>
      simp [check_ssh_port, h, filterMap_check_ssh conn rest]

theorem IPv4.value_lt (ip : IPv4) : ip.value < 2 ^ 32 := by
  obtain ⟨a, b, c, d⟩ := ip
  have := a.isLt
  have := b.isLt
  have := c.isLt
  have := d.isLt
  simp only [IPv4.value]
  omega

theorem ipOfValue_value (v : Nat) (h : v < 2 ^ 32) : (ipOfValue v).value = v := by
  simp only [ipOfValue, IPv4.value]
  omega

theorem ipOfValue_inj {v w : Nat} (hv : v < 2 ^ 32) (hw : w < 2 ^ 32)
    (h : ipOfValue v = ipOfValue w) : v = w := by
  have hc := congrArg IPv4.value h
  rwa [ipOfValue_value v hv, ipOfValue_value w hw] at hc

theorem Network.addr_bound (n : Network) :
    n.netValue + 2 ^ (32 - n.prefixLen) ≤ 2 ^ 32 := by
  have hm : 2 ^ (32 - n.prefixLen) ∣ n.netValue := Nat.dvd_of_mod_eq_zero n.hmask
  have hd : 2 ^ (32 - n.prefixLen) ∣ 2 ^ 32 := pow_dvd_pow 2 (by omega)
  obtain ⟨k, hk⟩ := hm
  obtain ⟨t, ht⟩ := hd
  have hv := n.hv
  have hmpos : 0 < 2 ^ (32 - n.prefixLen) := Nat.pos_pow_of_pos _ (by omega)
  rw [hk, ht] at hv ⊢
  have hkt : k < t := Nat.lt_of_mul_lt_mul_left hv
  calc 2 ^ (32 - n.prefixLen) * k + 2 ^ (32 - n.prefixLen)
      = 2 ^ (32 - n.prefixLen) * (k + 1) := by ring
    _ ≤ 2 ^ (32 - n.prefixLen) * t := Nat.mul_le_mul_left _ hkt

theorem Network.hosts_nodup (n : Network) : n.hosts.Nodup := by
  have hb := n.addr_bound
  unfold Network.hosts
  by_cases h31 : 31 ≤ n.prefixLen
  · rw [if_pos h31]
    refine List.Nodup.map_on ?_ (List.nodup_range _)
    intro i hi j hj hij
    simp only [List.mem_range] at hi hj
    have : n.netValue + i = n.netValue + j :=
      ipOfValue_inj (by omega) (by omega) hij
    omega
  · rw [if_neg h31]
    refine List.Nodup.map_on ?_ (List.nodup_range _)
    intro i hi j hj hij
    simp only [List.mem_range] at hi hj
    have : n.netValue + 1 + i = n.netValue + 1 + j :=
      ipOfValue_inj (by omega) (by omega) hij
    omega

theorem discover_eq_sort {range : String} {net : Network}
    (hparse : parseNetwork range = some net)
    (ping : IPv4 → PingOutcome) (ssh : IPv4 → ConnectOutcome)
    {a1 a2 : List IPv4 → List IPv4}
    (h1 : ∀ l, List.Perm (a1 l) l) (h2 : ∀ l, List.Perm (a2 l) l) (w : Nat) :
    discover_network_devices range ping ssh a1 a2 w =
      List.insertionSort ipLe
        ((net.hosts.filter (fun ip => decide (ping ip = PingOutcome.reply))).filter
          (fun ip => decide (ssh ip = ConnectOutcome.accepted))) := by
  unfold discover_network_devices
  rw [hparse]
  apply List.eq_of_perm_of_sorted _ (List.sorted_insertionSort _ _)
    (List.sorted_insertionSort _ _)
  rw [filterMap_ping_host, filterMap_check_ssh]
  have p1 : List.Perm ((a1 net.hosts).filter
      (fun ip => decide (ping ip = PingOutcome.reply)))
      (net.hosts.filter (fun ip => decide (ping ip = PingOutcome.reply))) :=
    (h1 net.hosts).filter _
  have p2 : List.Perm ((a2 ((a1 net.hosts).filter
        (fun ip => decide (ping ip = PingOutcome.reply)))).filter
      (fun ip => decide (ssh ip = ConnectOutcome.accepted)))
      ((net.hosts.filter (fun ip => decide (ping ip = PingOutcome.reply))).filter
        (fun ip => decide (ssh ip = ConnectOutcome.accepted))) :=
    ((h2 _).trans p1).filter _
  exact ((List.perm_insertionSort _ _).trans p2).trans
    (List.perm_insertionSort _ _).symm

theorem skeletonOf_skel (L : Leaves) : skeletonOf (skel L) = initialInventory := rfl

/-- C1: for every IPv4 address the classifier maps the last octet into the
fixed inclusive bins (1-10 cisco_routers/ios, 11-30 cisco_switches/ios,
31-40 arista_switches/eos, 41-50 juniper_routers/junos, 51-60
palo_alto_firewalls/panos, 61-70 fortinet_firewalls/fortios), every octet
outside all bins maps to unknown_devices/unknown, and the literal scenario
addresses ending in .5, .25, .35, .45 and .200 classify accordingly. -/
theorem C1_classifier_bins :
    (∀ ip : IPv4, 1 ≤ ip.d.val ∧ ip.d.val ≤ 10 →
      classify_device_type ip = ("cisco_routers", "ios"))
    ∧ (∀ ip : IPv4, 11 ≤ ip.d.val ∧ ip.d.val ≤ 30 →
      classify_device_type ip = ("cisco_switches", "ios"))
    ∧ (∀ ip : IPv4, 31 ≤ ip.d.val ∧ ip.d.val ≤ 40 →
      classify_device_type ip = ("arista_switches", "eos"))
    ∧ (∀ ip : IPv4, 41 ≤ ip.d.val ∧ ip.d.val ≤ 50 →
      classify_device_type ip = ("juniper_routers", "junos"))
    ∧ (∀ ip : IPv4, 51 ≤ ip.d.val ∧ ip.d.val ≤ 60 →
      classify_device_type ip = ("palo_alto_firewalls", "panos"))
    ∧ (∀ ip : IPv4, 61 ≤ ip.d.val ∧ ip.d.val ≤ 70 →
      classify_device_type ip = ("fortinet_firewalls", "fortios"))
    ∧ (∀ ip : IPv4, ip.d.val = 0 ∨ 70 < ip.d.val →
      classify_device_type ip = ("unknown_devices", "unknown"))
    ∧ classify_device_type ⟨192, 168, 1, 5⟩ = ("cisco_routers", "ios")
    ∧ classify_device_type ⟨192, 168, 1, 25⟩ = ("cisco_switches", "ios")
    ∧ classify_device_type ⟨192, 168, 1, 35⟩ = ("arista_switches", "eos")
    ∧ classify_device_type ⟨192, 168, 1, 45⟩ = ("juniper_routers", "junos")
    ∧ classify_device_type ⟨192, 168, 1, 200⟩ = ("unknown_devices", "unknown") := by
  refine ⟨?_, ?_, ?_, ?_, ?_, ?_, ?_, by decide, by decide, by decide, by decide, by decide⟩
  all_goals
    intro ip h
    have := ip.d.isLt
    simp only [classify_device_type]
    split_ifs <;> first | rfl | omega

/-- C1 witness: the bin theorem applied at the concrete address 10.0.0.5. -/
theorem C1_witness :
    (1 ≤ (⟨10, 0, 0, 5⟩ : IPv4).d.val ∧ (⟨10, 0, 0, 5⟩ : IPv4).d.val ≤ 10)
    ∧ classify_device_type ⟨10, 0, 0, 5⟩ = ("cisco_routers", "ios") :=
  ⟨by decide, C1_classifier_bins.1 ⟨10, 0, 0, 5⟩ (by decide)⟩

/-- C2: the canonical-hostname transform is injective, so two distinct
addresses can never produce the same hostname; consequently every tree built
from a duplicate-free address list carries pairwise distinct hostnames, one
per input address (nothing is merged or overwritten), and the discovery
pipeline only ever hands the builder a duplicate-free list. -/
theorem C2_hostname_uniqueness :
    (∀ x y : IPv4, x ≠ y → hostname x ≠ hostname y)
    ∧ (∀ (l : List IPv4) (fmt : String), l.Nodup →
        (nodeHostnames (generate_inventory l fmt)).Nodup
        ∧ List.Perm (nodeHostnames (generate_inventory l fmt)) (l.map hostname))
    ∧ (∀ (range : String) (ping : IPv4 → PingOutcome) (ssh : IPv4 → ConnectOutcome)
        (a1 a2 : List IPv4 → List IPv4) (w : Nat),
        (∀ l, List.Perm (a1 l) l) → (∀ l, List.Perm (a2 l) l) →
        (discover_network_devices range ping ssh a1 a2 w).Nodup) := by
  refine ⟨fun x y hne he => hne (hostname_inj he), ?_, ?_⟩
  · intro l fmt hl
    have hmap : (l.map hostname).Nodup := hl.map hostname_injective
    have hperm := nodeHostnames_build l fmt hmap
    exact ⟨hperm.nodup_iff.mpr hmap, hperm⟩
  · intro range ping ssh a1 a2 w h1 h2
    cases hp : parseNetwork range with
    | none =>
      unfold discover_network_devices
      rw [hp]
      exact List.nodup_nil
    | some net =>
      rw [discover_eq_sort hp ping ssh h1 h2 w]
      exact (List.perm_insertionSort _ _).nodup_iff.mpr
        ((net.hosts_nodup.filter _).filter _)

/-- C2 witness: the uniqueness theorem applied to a concrete two-address
list. -/
theorem C2_witness :
    hostname ⟨10, 0, 0, 5⟩ ≠ hostname ⟨10, 0, 0, 25⟩
    ∧ ([⟨10, 0, 0, 5⟩, ⟨10, 0, 0, 25⟩] : List IPv4).Nodup
    ∧ (nodeHostnames
        (generate_inventory [⟨10, 0, 0, 5⟩, ⟨10, 0, 0, 25⟩] "yaml")).Nodup :=
  ⟨C2_hostname_uniqueness.1 _ _ (by decide), by decide,
   (C2_hostname_uniqueness.2.1 _ "yaml" (by decide)).1⟩

/-- C5: for every built inventory tree, parsing the rendered document
yields the tree back unchanged, so the host set, the per-host fields and
the leaf-group membership all survive the round trip. -/
theorem C5_round_trip (l : List IPv4) (fmt : String) :
    parseDoc (renderDoc (generate_inventory l fmt)) =
      some (generate_inventory l fmt) := by
  rw [generate_inventory_skel]
  exact roundTrip_skel _

/-- C10: the built inventory always carries the full fixed group skeleton,
for every input list, and the empty input yields exactly the skeleton with
every leaf hosts mapping empty. -/
theorem C10_skeleton :
    (∀ (l : List IPv4) (fmt : String),
      skeletonOf (generate_inventory l fmt) = initialInventory)
    ∧ generate_inventory [] "yaml" = initialInventory := by
  constructor
  · intro l fmt
    rw [generate_inventory_skel]
    exact skeletonOf_skel _
  · rfl

/-- C3 counterexample: on the invalid range descriptor 300.1.1.1/24 the
pipeline does not fail: expansion yields no parse, yet the run completes
with success exit status and simply writes nothing, even with responders
that would answer every probe. -/
theorem C3_counterexample :
    parseNetwork "300.1.1.1/24" = none
    ∧ (mainRun "300.1.1.1/24" "yaml" (fun _ => PingOutcome.reply)
        (fun _ => ConnectOutcome.accepted) id id 50).exitSuccess = true
    ∧ (mainRun "300.1.1.1/24" "yaml" (fun _ => PingOutcome.reply)
        (fun _ => ConnectOutcome.accepted) id id 50).inventoryWritten = none := by
  exact ⟨rfl, rfl, rfl⟩

/-- C3 (amended): a range descriptor that does not parse is caught inside
discovery: the device list comes back empty regardless of the probe
responders (so nothing is probed), and the run then takes the empty-result
path and exits with success instead of raising a fatal error. -/
theorem C3_invalid_range_amended (s : String) (hs : parseNetwork s = none)
    (fmt : String) (ping : IPv4 → PingOutcome) (ssh : IPv4 → ConnectOutcome)
    (a1 a2 : List IPv4 → List IPv4) (w : Nat) :
    discover_network_devices s ping ssh a1 a2 w = []
    ∧ mainRun s fmt ping ssh a1 a2 w = ⟨true, none, none⟩ := by
  have hd : discover_network_devices s ping ssh a1 a2 w = [] := by
    unfold discover_network_devices
    rw [hs]
  refine ⟨hd, ?_⟩
  unfold mainRun
  rw [hd]
  rfl

/-- C3 witness: the amended statement applied at a concrete invalid
descriptor. -/
theorem C3_witness :
    discover_network_devices "10.0.0.256/24" (fun _ => PingOutcome.reply)
      (fun _ => ConnectOutcome.accepted) id id 50 = []
    ∧ mainRun "10.0.0.256/24" "yaml" (fun _ => PingOutcome.reply)
      (fun _ => ConnectOutcome.accepted) id id 50 = ⟨true, none, none⟩ :=
  C3_invalid_range_amended "10.0.0.256/24" rfl "yaml" _ _ id id 50

/-- C4 counterexample: the valid range 203.0.113.0/30 expands to its two
usable addresses, but with no responders the run writes no inventory at
all and reports no device count; only the success exit status part of the
claim holds, the empty-leaf-group inventory is never produced. -/
theorem C4_counterexample :
    (parseNetwork "203.0.113.0/30").map Network.hosts
      = some [⟨203, 0, 113, 1⟩, ⟨203, 0, 113, 2⟩]
    ∧ discover_network_devices "203.0.113.0/30" (fun _ => PingOutcome.noReply)
        (fun _ => ConnectOutcome.accepted) id id 50 = []
    ∧ mainRun "203.0.113.0/30" "yaml" (fun _ => PingOutcome.noReply)
        (fun _ => ConnectOutcome.accepted) id id 50 = ⟨true, none, none⟩
    ∧ (mainRun "203.0.113.0/30" "yaml" (fun _ => PingOutcome.noReply)
        (fun _ => ConnectOutcome.accepted) id id 50).inventoryWritten
        ≠ some (generate_inventory [] "yaml") := by
  refine ⟨by decide, by decide, rfl, ?_⟩
  have hres : (mainRun "203.0.113.0/30" "yaml" (fun _ => PingOutcome.noReply)
      (fun _ => ConnectOutcome.accepted) id id 50).inventoryWritten = none := rfl
  rw [hres]
  exact fun h => Option.noConfusion h

/-- C4 (amended): a run whose discovery yields zero devices exits with
success status and takes the distinct empty-result path, but it skips
inventory generation entirely: no inventory document is written and no
device count is reported. -/
theorem C4_empty_result_amended (s fmt : String)
    (ping : IPv4 → PingOutcome) (ssh : IPv4 → ConnectOutcome)
    (a1 a2 : List IPv4 → List IPv4) (w : Nat)
    (hempty : discover_network_devices s ping ssh a1 a2 w = []) :
    mainRun s fmt ping ssh a1 a2 w = ⟨true, none, none⟩ := by
  unfold mainRun
  rw [hempty]
  rfl

/-- C4 witness: the amended statement applied to the literal empty-result
scenario of the spec. -/
theorem C4_witness :
    mainRun "203.0.113.0/30" "json" (fun _ => PingOutcome.timeout)
      (fun _ => ConnectOutcome.accepted) id id 50 = ⟨true, none, none⟩ :=
  C4_empty_result_amended "203.0.113.0/30" "json" _ _ id id 50 (by decide)

/-- C9: discover_network_devices always returns the sorted ascending
sequence of exactly the addresses that passed both probe phases, whatever
order the probe completions arrived in. -/
theorem C9_sorted_output (range : String) (net : Network)
    (hparse : parseNetwork range = some net)
    (ping : IPv4 → PingOutcome) (ssh : IPv4 → ConnectOutcome)
    (a1 a2 : List IPv4 → List IPv4)
    (h1 : ∀ l, List.Perm (a1 l) l) (h2 : ∀ l, List.Perm (a2 l) l) (w : Nat) :
    discover_network_devices range ping ssh a1 a2 w =
      List.insertionSort ipLe
        ((net.hosts.filter (fun ip => decide (ping ip = PingOutcome.reply))).filter
          (fun ip => decide (ssh ip = ConnectOutcome.accepted)))
    ∧ List.Sorted ipLe (discover_network_devices range ping ssh a1 a2 w) := by
  have he := discover_eq_sort hparse ping ssh h1 h2 w
  refine ⟨he, ?_⟩
  rw [he]
  exact List.sorted_insertionSort _ _

/-- C9 witness: the sortedness theorem applied to a concrete /29 range with
completions arriving in reversed order. -/
theorem C9_witness :
    discover_network_devices "10.0.0.0/29" (fun _ => PingOutcome.reply)
        (fun _ => ConnectOutcome.accepted) List.reverse List.reverse 7 =
      List.insertionSort ipLe
        (((mkNetwork ⟨10, 0, 0, 0⟩ 29 (by omega)).hosts.filter
            (fun ip => decide ((fun _ : IPv4 => PingOutcome.reply) ip = PingOutcome.reply))).filter
          (fun ip => decide ((fun _ : IPv4 => ConnectOutcome.accepted) ip = ConnectOutcome.accepted)))
    ∧ List.Sorted ipLe (discover_network_devices "10.0.0.0/29"
        (fun _ => PingOutcome.reply) (fun _ => ConnectOutcome.accepted)
        List.reverse List.reverse 7) :=
  C9_sorted_output "10.0.0.0/29" (mkNetwork ⟨10, 0, 0, 0⟩ 29 (by omega)) rfl
    (fun _ => PingOutcome.reply) (fun _ => ConnectOutcome.accepted)
    List.reverse List.reverse (fun l => l.reverse_perm) (fun l => l.reverse_perm) 7

/-- C8: over the same responders, the probing pipeline returns the same
final address list whatever the worker count and whatever order each
pool's completions arrive in; worker count and arrival order are
observably irrelevant. -/
theorem C8_worker_invariance (range : String)
    (ping : IPv4 → PingOutcome) (ssh : IPv4 → ConnectOutcome)
    (a1 a2 b1 b2 : List IPv4 → List IPv4)
    (h1 : ∀ l, List.Perm (a1 l) l) (h2 : ∀ l, List.Perm (a2 l) l)
    (h3 : ∀ l, List.Perm (b1 l) l) (h4 : ∀ l, List.Perm (b2 l) l)
    (w1 w2 : Nat) :
    discover_network_devices range ping ssh a1 a2 w1
      = discover_network_devices range ping ssh b1 b2 w2 := by
  cases hp : parseNetwork range with
  | none =>
    unfold discover_network_devices
    rw [hp]
  | some net =>
    rw [discover_eq_sort hp ping ssh h1 h2 w1,
      discover_eq_sort hp ping ssh h3 h4 w2]

/-- C8 witness: worker-count 1 with in-order arrivals against worker-count
50 with reversed arrivals on a concrete /29 range. -/
theorem C8_witness :
    discover_network_devices "10.0.0.0/29"
        (fun ip => if ip.d.val ≤ 3 then PingOutcome.reply else PingOutcome.timeout)
        (fun ip => if ip.d.val = 2 then ConnectOutcome.refused else ConnectOutcome.accepted)
        id id 1
      = discover_network_devices "10.0.0.0/29"
        (fun ip => if ip.d.val ≤ 3 then PingOutcome.reply else PingOutcome.timeout)
        (fun ip => if ip.d.val = 2 then ConnectOutcome.refused else ConnectOutcome.accepted)
        List.reverse List.reverse 50 :=
  C8_worker_invariance "10.0.0.0/29" _ _ id id List.reverse List.reverse
    (fun l => List.Perm.refl l) (fun l => List.Perm.refl l)
    (fun l => l.reverse_perm) (fun l => l.reverse_perm) 1 50

/-- C7: probes that time out or error are absorbed (they yield None, never
an error), and every address of the expanded range meets exactly one of
three fates: excluded as not live, excluded as service-closed, or placed in
exactly one leaf group of the built inventory. -/
theorem C7_trichotomy (range : String) (net : Network)
    (hparse : parseNetwork range = some net)
    (ping : IPv4 → PingOutcome) (ssh : IPv4 → ConnectOutcome)
    (a1 a2 : List IPv4 → List IPv4)
    (h1 : ∀ l, List.Perm (a1 l) l) (h2 : ∀ l, List.Perm (a2 l) l)
    (w : Nat) (fmt : String) (ip : IPv4) (hip : ip ∈ net.hosts) :
    (∀ q : IPv4, ping q ≠ PingOutcome.reply → ping_host ping q = none)
    ∧ (∀ q : IPv4, ssh q ≠ ConnectOutcome.accepted → check_ssh_port ssh q = none)
    ∧ exactlyOne (ping ip ≠ PingOutcome.reply)
        (ping ip = PingOutcome.reply ∧ ssh ip ≠ ConnectOutcome.accepted)
        (hostGroupCount
          (generate_inventory (discover_network_devices range ping ssh a1 a2 w) fmt)
          (hostname ip) = 1) := by
  refine ⟨?_, ?_, ?_⟩
  · intro q hq
    cases h : ping q <;> first | exact absurd h hq | simp [ping_host, h]
  · intro q hq
    cases h : ssh q <;> first | exact absurd h hq | simp [check_ssh_port, h]
  · have he := discover_eq_sort hparse ping ssh h1 h2 w
    have hperm : List.Perm (discover_network_devices range ping ssh a1 a2 w)
        ((net.hosts.filter (fun q => decide (ping q = PingOutcome.reply))).filter
          (fun q => decide (ssh q = ConnectOutcome.accepted))) := by
      rw [he]
      exact List.perm_insertionSort _ _
    have hDnodup : (discover_network_devices range ping ssh a1 a2 w).Nodup :=
      hperm.nodup_iff.mpr ((net.hosts_nodup.filter _).filter _)
    have hmemD : ip ∈ discover_network_devices range ping ssh a1 a2 w ↔
        ping ip = PingOutcome.reply ∧ ssh ip = ConnectOutcome.accepted := by
      rw [hperm.mem_iff]
      simp only [List.mem_filter, decide_eq_true_eq, hip, true_and]
    have hcount := hostGroupCount_build
      (discover_network_devices range ping ssh a1 a2 w) fmt ip
      (hDnodup.map hostname_injective)
    by_cases hping : ping ip = PingOutcome.reply
    · by_cases hssh : ssh ip = ConnectOutcome.accepted
      · refine Or.inr (Or.inr ⟨fun h => h hping, fun h => h.2 hssh, ?_⟩)
        rw [hcount, if_pos (hmemD.mpr ⟨hping, hssh⟩)]
      · refine Or.inr (Or.inl ⟨fun h => h hping, ⟨hping, hssh⟩, ?_⟩)
        rw [hcount, if_neg (fun hm => hssh (hmemD.mp hm).2)]
        omega
    · refine Or.inl ⟨hping, fun h => hping h.1, ?_⟩
      rw [hcount, if_neg (fun hm => hping (hmemD.mp hm).1)]
      omega

/-- C7 witness: the trichotomy applied at a concrete /29 range with
all-responding oracles and the address 10.0.0.1. -/
theorem C7_witness :
    exactlyOne ((fun _ : IPv4 => PingOutcome.reply) ⟨10, 0, 0, 1⟩ ≠ PingOutcome.reply)
      ((fun _ : IPv4 => PingOutcome.reply) ⟨10, 0, 0, 1⟩ = PingOutcome.reply
        ∧ (fun _ : IPv4 => ConnectOutcome.accepted) ⟨10, 0, 0, 1⟩ ≠ ConnectOutcome.accepted)
      (hostGroupCount
        (generate_inventory
          (discover_network_devices "10.0.0.0/29" (fun _ => PingOutcome.reply)
            (fun _ => ConnectOutcome.accepted) id id 50) "yaml")
        (hostname ⟨10, 0, 0, 1⟩) = 1) :=
  (C7_trichotomy "10.0.0.0/29" (mkNetwork ⟨10, 0, 0, 0⟩ 29 (by omega)) rfl
    (fun _ => PingOutcome.reply) (fun _ => ConnectOutcome.accepted) id id
    (fun l => List.Perm.refl l) (fun l => List.Perm.refl l) 50 "yaml"
    ⟨10, 0, 0, 1⟩ (by decide)).2.2

/-- C6: in the generated enterprise inventory the overlay groups
(all_switches, all_routers, all_firewalls, production, and the per-vendor
overlays) are pure name-reference nodes holding no host entries of their
own; every name they reference resolves to an already-created group of the
tree, and all_switches resolves to exactly the concatenation of the
cisco_switches and arista_switches leaf hosts, so no host entry is ever
duplicated between an overlay and its referenced leaves. -/
theorem C6_overlay_groups :
    lookupChild generate_complete_inventory "all_switches"
      = some (.refs ["cisco_devices:cisco_switches", "arista_devices:arista_switches"])
    ∧ (∀ names : List String, cHosts (.refs names) = [])
    ∧ resolveRef generate_complete_inventory "cisco_devices:cisco_switches"
      = some cisco_switches_group
    ∧ resolveRef generate_complete_inventory "arista_devices:arista_switches"
      = some arista_switches_group
    ∧ overlayHosts generate_complete_inventory
        (.refs ["cisco_devices:cisco_switches", "arista_devices:arista_switches"])
      = cHosts cisco_switches_group ++ cHosts arista_switches_group
    ∧ lookupChild generate_complete_inventory "all_routers"
      = some (.refs ["cisco_devices:cisco_routers", "juniper_devices:juniper_routers"])
    ∧ resolveRef generate_complete_inventory "cisco_devices:cisco_routers"
      = some cisco_routers_group
    ∧ resolveRef generate_complete_inventory "juniper_devices:juniper_routers"
      = some juniper_routers_group
    ∧ lookupChild generate_complete_inventory "all_firewalls"
      = some (.refs
          ["palo_alto_devices:palo_alto_firewalls", "fortinet_devices:fortinet_firewalls"])
    ∧ resolveRef generate_complete_inventory "palo_alto_devices:palo_alto_firewalls"
      = some palo_alto_firewalls_group
    ∧ resolveRef generate_complete_inventory "fortinet_devices:fortinet_firewalls"
      = some fortinet_firewalls_group
    ∧ lookupChild generate_complete_inventory "production"
      = some (.refs
          ["cisco_devices", "arista_devices", "juniper_devices",
           "palo_alto_devices", "fortinet_devices"])
    ∧ (resolveRef generate_complete_inventory "cisco_devices").isSome = true
    ∧ (resolveRef generate_complete_inventory "arista_devices").isSome = true
    ∧ (resolveRef generate_complete_inventory "juniper_devices").isSome = true
    ∧ (resolveRef generate_complete_inventory "palo_alto_devices").isSome = true
    ∧ (resolveRef generate_complete_inventory "fortinet_devices").isSome = true := by
  refine ⟨rfl, fun names => rfl, rfl, rfl, ?_, rfl, rfl, rfl, rfl, rfl, rfl, rfl,
    rfl, rfl, rfl, rfl, rfl⟩
  show ((["cisco_devices:cisco_switches", "arista_devices:arista_switches"].map
      (fun n => match resolveRef generate_complete_inventory n with
        | some t => cHosts t
        | none => [])).flatten)
    = cHosts cisco_switches_group ++ cHosts arista_switches_group
  simp [resolveRef, refPath, lookupPath, lookupChild, generate_complete_inventory]
